import Mathlib

/-!
Shallow embedding of the persistence core (storage / auth / forms / leads
module) of the "Leads do Capitão" lead-capture application, together with
theorems about its behaviour.

Modelling notes.
* The browser key-value substrate (localStorage) maps string keys to string
  values.  The core stores JSON-encoded values under a fixed key schema
  (`saas_users`, `saas_session_uid`, and per-user keys produced by
  `getUserKey`).  Since the three per-user key families and the two global
  keys never collide (proved below about `getUserKey`), the store is
  modelled with one typed slot per key family.
* A stored cell is `Option (Raw α)`: `none` models an absent key,
  `Raw.malformed` models a non-empty stored string on which `JSON.parse`
  fails, and `Raw.enc a` models the JSON encoding of `a`.  (The empty
  string, which JavaScript's falsy test treats like an absent key, is not
  modelled: no write path of the core ever stores it.)
* `crypto.randomUUID()` and `new Date().toISOString()` are nondeterministic
  inputs; each operation that consumes them takes them as explicit
  arguments.
* A JavaScript truthiness test on a lead's `formId` field (absent or empty
  string is falsy) is modelled by `hasFormId`.
-/

namespace LeadsCore

/-- The AppSettings payload (constants.ts / types). -/
structure AppSettings where
  headline : String
  subheadline : String
  ctaText : String
  logoUrl : String
  heroImageUrl : String
  primaryColor : String
  backgroundColor : String
  textColor : String
  redirectUrl : String
  fileName : String
deriving DecidableEq, Repr

/-- DEFAULT_SETTINGS from constants.ts. -/
def DEFAULT_SETTINGS : AppSettings :=
  { headline := "Baixe nosso E-book Exclusivo Agora!"
  , subheadline := "Descubra os segredos para alavancar seu negócio com nosso material gratuito. Preencha os dados para receber."
  , ctaText := "Receber Arquivo"
  , logoUrl := "/logo.png"
  , heroImageUrl := "https://picsum.photos/800/600"
  , primaryColor := "#2563eb"
  , backgroundColor := "#f3f4f6"
  , textColor := "#1f2937"
  , redirectUrl := "https://google.com"
  , fileName := "ebook-estrategico.pdf" }

/-- A user record as stored (StoredUser: User plus the password field). -/
structure StoredUser where
  id : String
  name : String
  email : String
  password : String
  createdAt : String
deriving DecidableEq, Repr

/-- The sanitized user record exposed to callers (no password field). -/
structure User where
  id : String
  name : String
  email : String
  createdAt : String
deriving DecidableEq, Repr

/-- `const { password: _, ...sanitizedUser } = user`. -/
def sanitize (u : StoredUser) : User :=
  { id := u.id, name := u.name, email := u.email, createdAt := u.createdAt }

/-- A capture-form configuration: the settings payload spread flat, plus
id, title and createdAt. -/
structure FormConfig extends AppSettings where
  id : String
  title : String
  createdAt : String
deriving DecidableEq, Repr

/-- A captured lead.  `formId` is `Option String` because legacy stored
leads may lack the field. -/
structure Lead where
  id : String
  formId : Option String
  name : String
  email : String
  whatsapp : String
  capturedAt : String
deriving DecidableEq, Repr

/-- JS truthiness of `l.formId`: false iff the field is absent or the
empty string. -/
def hasFormId (l : Lead) : Bool :=
  match l.formId with
  | none => false
  | some s => !(s == "")

/-- A stored string for a cell expected to decode to `α`: either a
non-empty string that fails to decode, or the encoding of a value. -/
inductive Raw (α : Type) where
  | malformed : Raw α
  | enc : α → Raw α
deriving DecidableEq, Repr

/-- `JSON.parse` on a stored string, typed: decoding is fallible. -/
def jsonParse {α : Type} : Raw α → Except String α
  | .malformed => .error "Error parsing storage data"
  | .enc a => .ok a

/-- safeParse: `if (!json) return fallback; try { return JSON.parse(json) }
catch { return fallback }`. -/
def safeParse {α : Type} (json : Option (Raw α)) (fallback : α) : α :=
  match json with
  | none => fallback
  | some r =>
    match jsonParse r with
    | .ok a => a
    | .error _ => fallback

/-- getUserKey: builds the per-user storage key `saas_${uid}_${type}`. -/
def getUserKey (uid : String) (type : String) : String :=
  "saas_" ++ uid ++ "_" ++ type

/-- The key-value substrate, one typed slot per key family:
`users` is the cell at key `saas_users`, `session` the raw string at
`saas_session_uid`, and `forms u` / `leads u` / `settings u` the cells at
`getUserKey u "forms"` / `"leads"` / `"settings"`. -/
structure Store where
  users : Option (Raw (List StoredUser))
  session : Option String
  forms : String → Option (Raw (List FormConfig))
  leads : String → Option (Raw (List Lead))
  settings : String → Option (Raw AppSettings)

/-- localStorage.setItem at a per-user forms key. -/
def Store.setForms (s : Store) (u : String) (v : Option (Raw (List FormConfig))) : Store :=
  { s with forms := fun x => if x = u then v else s.forms x }

/-- localStorage.setItem at a per-user leads key. -/
def Store.setLeads (s : Store) (u : String) (v : Option (Raw (List Lead))) : Store :=
  { s with leads := fun x => if x = u then v else s.leads x }

/-- A store in which every key is absent. -/
def Store.empty : Store :=
  { users := none, session := none
  , forms := fun _ => none, leads := fun _ => none, settings := fun _ => none }

-- Projection lemmas for the setters.

theorem forms_setForms_same (s : Store) (u : String) (v : Option (Raw (List FormConfig))) :
    (s.setForms u v).forms u = v := by
  simp [Store.setForms]

theorem forms_setForms_other (s : Store) (u w : String) (v : Option (Raw (List FormConfig)))
    (h : w ≠ u) : (s.setForms u v).forms w = s.forms w := by
  simp [Store.setForms, h]

theorem leads_setLeads_same (s : Store) (u : String) (v : Option (Raw (List Lead))) :
    (s.setLeads u v).leads u = v := by
  simp [Store.setLeads]

theorem leads_setLeads_other (s : Store) (u w : String) (v : Option (Raw (List Lead)))
    (h : w ≠ u) : (s.setLeads u v).leads w = s.leads w := by
  simp [Store.setLeads, h]

-- --- AUTH & USERS ---

/-- getStoredUsers: decode the global user list. -/
def getStoredUsers (s : Store) : List StoredUser :=
  safeParse s.users []

/-- getForms: decode the per-user form list. -/
def getForms (userId : String) (s : Store) : List FormConfig :=
  safeParse (s.forms userId) []

/-- createForm: build a new form from DEFAULT_SETTINGS with a fresh id and
timestamp, push it onto the user's list, persist, return it. -/
def createForm (userId title freshId now : String) (s : Store) : FormConfig × Store :=
  let forms := getForms userId s
  let newForm : FormConfig :=
    { toAppSettings := DEFAULT_SETTINGS, id := freshId, title := title, createdAt := now }
  (newForm, s.setForms userId (some (.enc (forms ++ [newForm]))))

/-- registerUser: refuse if any stored user has the email; otherwise
append the new stored user, persist, provision a first default form, and
return the sanitized user.  `uid`/`unow` are the fresh UUID and timestamp
of the user, `fid`/`fnow` those consumed by the inner createForm. -/
def registerUser (name email password uid unow fid fnow : String) (s : Store) :
    Option User × Store :=
  let users := getStoredUsers s
  match users.find? (fun u => u.email == email) with
  | some _ => (none, s)
  | none =>
    let newUser : StoredUser :=
      { id := uid, name := name, email := email, password := password, createdAt := unow }
    let s1 : Store := { s with users := some (.enc (users ++ [newUser])) }
    let s2 := (createForm uid "Meu Primeiro Formulário" fid fnow s1).2
    (some (sanitize newUser), s2)

/-- migrateLegacySettings: if the user's forms key is absent, synthesize a
single form from the legacy settings record (or DEFAULT_SETTINGS) and
persist it; otherwise do nothing. -/
def migrateLegacySettings (userId fid now : String) (s : Store) : Store :=
  match s.forms userId with
  | some _ => s
  | none =>
    let settingsToUse := safeParse (s.settings userId) DEFAULT_SETTINGS
    let initialForm : FormConfig :=
      { toAppSettings := settingsToUse, id := fid
      , title := "Formulário Padrão (Migrado)", createdAt := now }
    s.setForms userId (some (.enc [initialForm]))

/-- loginUser: exact match of email and password; on success set the
session pointer, run the legacy-settings migration and return the
sanitized user. -/
def loginUser (email pass fid now : String) (s : Store) : Option User × Store :=
  let users := getStoredUsers s
  match users.find? (fun u => u.email == email && u.password == pass) with
  | some user =>
    let s1 : Store := { s with session := some user.id }
    (some (sanitize user), migrateLegacySettings user.id fid now s1)
  | none => (none, s)

/-- logoutUser: clear the session pointer. -/
def logoutUser (s : Store) : Store :=
  { s with session := none }

/-- getCurrentUser: resolve the session pointer to a sanitized user. -/
def getCurrentUser (s : Store) : Option User :=
  match s.session with
  | none => none
  | some uid =>
    match (getStoredUsers s).find? (fun u => u.id == uid) with
    | some user => some (sanitize user)
    | none => none

/-- C2: if some stored user already has email `e` (string equality on the
stored value, hence case-sensitive), `registerUser` returns no result and
leaves the whole store — in particular the stored user list — unchanged. -/
theorem registerUser_conflict (n e p uid unow fid fnow : String) (s : Store)
    (h : ∃ u ∈ getStoredUsers s, u.email = e) :
    registerUser n e p uid unow fid fnow s = (none, s) := by
  obtain ⟨u, hu, he⟩ := h
  have hfind : ((getStoredUsers s).find? (fun u => u.email == e)).isSome := by
    rw [List.find?_isSome]
    exact ⟨u, hu, by simp [he]⟩
  unfold registerUser
  cases hf : (getStoredUsers s).find? (fun u => u.email == e) with
  | none => rw [hf] at hfind; simp at hfind
  | some w => simp only [hf]

/-- C2 witness: a concrete store with one stored user whose email is
taken. -/
def sampleUsersStore : Store :=
  { Store.empty with
    users := some (.enc [{ id := "u1", name := "Ana", email := "ana@x.com"
                         , password := "pw1", createdAt := "t0" }]) }

theorem registerUser_conflict_witness :
    registerUser "Bob" "ana@x.com" "pw2" "u2" "t1" "f2" "t1" sampleUsersStore =
      (none, sampleUsersStore) :=
  registerUser_conflict "Bob" "ana@x.com" "pw2" "u2" "t1" "f2" "t1" sampleUsersStore
    ⟨{ id := "u1", name := "Ana", email := "ana@x.com", password := "pw1", createdAt := "t0" },
     by decide, rfl⟩

-- --- FORMS MANAGEMENT (continued) AND LEADS ---

/-- getFormById. -/
def getFormById (userId formId : String) (s : Store) : Option FormConfig :=
  (getForms userId s).find? (fun f => f.id == formId)

/-- updateForm: replace the stored form whose id matches; silently do
nothing when no index matches (findIndex returned -1). -/
def updateForm (userId : String) (updatedForm : FormConfig) (s : Store) : Store :=
  let forms := getForms userId s
  match forms.findIdx? (fun f => f.id == updatedForm.id) with
  | some i => s.setForms userId (some (.enc (forms.set i updatedForm)))
  | none => s

/-- getAllLeads: decode the user's leads; if at least one form exists and
some lead lacks a formId (JS falsy test), assign the first form's id to
every such lead and persist the corrected list before returning it. -/
def getAllLeads (userId : String) (s : Store) : List Lead × Store :=
  let leads := safeParse (s.leads userId) []
  let forms := getForms userId s
  match forms, leads.any (fun l => !(hasFormId l)) with
  | f0 :: _, true =>
    let leads2 := leads.map (fun l => if hasFormId l then l else { l with formId := some f0.id })
    (leads2, s.setLeads userId (some (.enc leads2)))
  | _, _ => (leads, s)

/-- deleteForm: remove the form from the list and persist; then read all
leads (which may itself run the backfill migration) and move every lead of
the deleted form to the "consolidated" folder. -/
def deleteForm (userId formId : String) (s : Store) : Store :=
  let forms := getForms userId s
  let updatedForms := forms.filter (fun f => !(f.id == formId))
  let s1 := s.setForms userId (some (.enc updatedForms))
  let res := getAllLeads userId s1
  let updatedLeads := res.1.map (fun lead =>
    if lead.formId == some formId then { lead with formId := some "consolidated" } else lead)
  res.2.setLeads userId (some (.enc updatedLeads))

/-- saveLead: fresh id and timestamp, prepend to the ledger, persist. -/
def saveLead (userId formId name email whatsapp freshId now : String) (s : Store) : Store :=
  let res := getAllLeads userId s
  let newLead : Lead :=
    { id := freshId, formId := some formId, name := name, email := email
    , whatsapp := whatsapp, capturedAt := now }
  res.2.setLeads userId (some (.enc (newLead :: res.1)))

/-- updateLead: replace-by-id; when the id is absent the update writes
nothing (but the getAllLeads read has already run). -/
def updateLead (userId : String) (updatedLead : Lead) (s : Store) : Store :=
  let res := getAllLeads userId s
  match res.1.findIdx? (fun l => l.id == updatedLead.id) with
  | some i => res.2.setLeads userId (some (.enc (res.1.set i updatedLead)))
  | none => res.2

/-- deleteLead: remove the matching record by id. -/
def deleteLead (userId leadId : String) (s : Store) : Store :=
  let res := getAllLeads userId s
  res.2.setLeads userId (some (.enc (res.1.filter (fun l => !(l.id == leadId)))))

/-- deleteMultipleLeads: remove every record whose id is listed. -/
def deleteMultipleLeads (userId : String) (leadIds : List String) (s : Store) : Store :=
  let res := getAllLeads userId s
  res.2.setLeads userId (some (.enc (res.1.filter (fun l => !(leadIds.contains l.id)))))

/-- The fixed administrator email seeded at startup. -/
def ADMIN_EMAIL : String := "doutortao@gmail.com.br"

/-- initializeStorage: seed the admin account if absent. -/
def initializeStorage (uid unow fid fnow : String) (s : Store) : Store :=
  let users := getStoredUsers s
  match users.find? (fun u => u.email == ADMIN_EMAIL) with
  | some _ => s
  | none => (registerUser "Administrador" ADMIN_EMAIL "admin123" uid unow fid fnow s).2

/-- C4: the settings→forms migration is idempotent: running it twice (with
any fresh ids and timestamps) equals running it once, and once the user's
forms cell exists — whatever it holds — an invocation changes nothing. -/
theorem migrateLegacySettings_idempotent :
    (∀ u fid1 now1 fid2 now2 s,
        migrateLegacySettings u fid2 now2 (migrateLegacySettings u fid1 now1 s) =
          migrateLegacySettings u fid1 now1 s) ∧
    (∀ u fid now s, s.forms u ≠ none → migrateLegacySettings u fid now s = s) := by
  constructor
  · intro u fid1 now1 fid2 now2 s
    cases h : s.forms u with
    | some v =>
      simp [migrateLegacySettings, h]
    | none =>
      simp [migrateLegacySettings, h, Store.setForms]
  · intro u fid now s h
    cases hf : s.forms u with
    | some v => simp [migrateLegacySettings, hf]
    | none => exact absurd hf h

/-- C4 witness: on a store whose forms cell for "u" holds an undecodable
string, the migration changes nothing. -/
def sampleMalformedFormsStore : Store :=
  { Store.empty with forms := fun v => if v = "u" then some .malformed else none }

theorem migrateLegacySettings_idempotent_witness :
    migrateLegacySettings "u" "f" "t" sampleMalformedFormsStore = sampleMalformedFormsStore :=
  migrateLegacySettings_idempotent.2 "u" "f" "t" sampleMalformedFormsStore
    (by simp [sampleMalformedFormsStore, Store.empty])

/-- Updating the global users cell does not change what getForms reads. -/
theorem getForms_users_update (s : Store) (u : String) (x : Option (Raw (List StoredUser))) :
    getForms u { s with users := x } = getForms u s := rfl

/-- The migration does nothing when the forms cell exists. -/
theorem migrate_noop (u fid now : String) (s : Store) (h : s.forms u ≠ none) :
    migrateLegacySettings u fid now s = s := by
  cases hf : s.forms u with
  | some v => simp [migrateLegacySettings, hf]
  | none => exact absurd hf h

/-- registerUser on a fresh email: the exact result pair. -/
theorem registerUser_fresh_eq (n e p uid unow fid fnow : String) (s : Store)
    (hfind : (getStoredUsers s).find? (fun u => u.email == e) = none)
    (hForms : getForms uid s = []) :
    registerUser n e p uid unow fid fnow s =
      (some { id := uid, name := n, email := e, createdAt := unow },
        Store.setForms
          { s with users := some (.enc (getStoredUsers s ++
              [{ id := uid, name := n, email := e, password := p, createdAt := unow }])) }
          uid
          (some (.enc [{ toAppSettings := DEFAULT_SETTINGS, id := fid
                       , title := "Meu Primeiro Formulário", createdAt := fnow }]))) := by
  unfold registerUser createForm
  simp only [hfind, getForms_users_update, hForms, List.nil_append, sanitize]

/-- C3: registering a fresh email succeeds and returns the sanitized user
(no password field); afterwards login with the same credentials succeeds
and the new user owns exactly one form. -/
theorem registerUser_fresh_then_login (n e p uid unow fid fnow fid2 now2 : String) (s : Store)
    (hEmail : ∀ u ∈ getStoredUsers s, u.email ≠ e)
    (hForms : getForms uid s = []) :
    (registerUser n e p uid unow fid fnow s).1 =
        some { id := uid, name := n, email := e, createdAt := unow } ∧
    (loginUser e p fid2 now2 (registerUser n e p uid unow fid fnow s).2).1 =
        some { id := uid, name := n, email := e, createdAt := unow } ∧
    (getForms uid (loginUser e p fid2 now2 (registerUser n e p uid unow fid fnow s).2).2).length
        = 1 := by
  have hfind : (getStoredUsers s).find? (fun u => u.email == e) = none :=
    List.find?_eq_none.mpr (fun x hx => by simp [hEmail x hx])
  have hfind2 : (getStoredUsers s).find? (fun u => u.email == e && u.password == p) = none :=
    List.find?_eq_none.mpr (fun x hx => by simp [hEmail x hx])
  rw [registerUser_fresh_eq n e p uid unow fid fnow s hfind hForms]
  have hlogin : loginUser e p fid2 now2
      (Store.setForms
        { s with users := some (.enc (getStoredUsers s ++
            [{ id := uid, name := n, email := e, password := p, createdAt := unow }])) }
        uid
        (some (.enc [{ toAppSettings := DEFAULT_SETTINGS, id := fid
                     , title := "Meu Primeiro Formulário", createdAt := fnow }]))) =
      (some { id := uid, name := n, email := e, createdAt := unow },
        { Store.setForms
            { s with users := some (.enc (getStoredUsers s ++
                [{ id := uid, name := n, email := e, password := p, createdAt := unow }])) }
            uid
            (some (.enc [{ toAppSettings := DEFAULT_SETTINGS, id := fid
                         , title := "Meu Primeiro Formulário", createdAt := fnow }]))
          with session := some uid }) := by
    unfold loginUser
    have hstored : getStoredUsers
        (Store.setForms
          { s with users := some (.enc (getStoredUsers s ++
              [{ id := uid, name := n, email := e, password := p, createdAt := unow }])) }
          uid
          (some (.enc [{ toAppSettings := DEFAULT_SETTINGS, id := fid
                       , title := "Meu Primeiro Formulário", createdAt := fnow }]))) =
        getStoredUsers s ++
          [{ id := uid, name := n, email := e, password := p, createdAt := unow }] := rfl
    simp only [hstored, List.find?_append, hfind2, Option.none_or]
    simp only [List.find?_cons, beq_self_eq_true, Bool.and_self]
    rw [migrate_noop]
    · exact rfl
    · simp [Store.setForms]
  rw [hlogin]
  refine ⟨rfl, rfl, ?_⟩
  simp [getForms, Store.setForms, safeParse, jsonParse]

/-- C3 witness: registering on the empty store. -/
theorem registerUser_fresh_then_login_witness :
    (registerUser "Ana" "ana@x.com" "pw1" "u1" "t0" "f1" "t0" Store.empty).1 =
        some { id := "u1", name := "Ana", email := "ana@x.com", createdAt := "t0" } ∧
    (loginUser "ana@x.com" "pw1" "f9" "t9"
        (registerUser "Ana" "ana@x.com" "pw1" "u1" "t0" "f1" "t0" Store.empty).2).1 =
        some { id := "u1", name := "Ana", email := "ana@x.com", createdAt := "t0" } ∧
    (getForms "u1" (loginUser "ana@x.com" "pw1" "f9" "t9"
        (registerUser "Ana" "ana@x.com" "pw1" "u1" "t0" "f1" "t0" Store.empty).2).2).length
        = 1 :=
  registerUser_fresh_then_login "Ana" "ana@x.com" "pw1" "u1" "t0" "f1" "t0" "f9" "t9"
    Store.empty (by simp [getStoredUsers, Store.empty, safeParse]) (by rfl)

-- Case equations for getAllLeads.

/-- getAllLeads without untagged leads: pure read. -/
theorem getAllLeads_no_untagged (u : String) (s : Store)
    (h : (safeParse (s.leads u) []).any (fun l => !(hasFormId l)) = false) :
    getAllLeads u s = (safeParse (s.leads u) [], s) := by
  unfold getAllLeads
  cases hf : getForms u s with
  | nil => simp only [hf, h]
  | cons f0 rest => simp only [hf, h]

/-- getAllLeads when the user has no forms: pure read. -/
theorem getAllLeads_no_forms (u : String) (s : Store) (h : getForms u s = []) :
    getAllLeads u s = (safeParse (s.leads u) [], s) := by
  unfold getAllLeads
  cases ha : (safeParse (s.leads u) []).any (fun l => !(hasFormId l)) with
  | false => simp only [h, ha]
  | true => simp only [h, ha]

/-- getAllLeads in the backfill case: tag every untagged lead with the
first form's id, persist, return the corrected list. -/
theorem getAllLeads_backfill_eq (u : String) (s : Store) (f0 : FormConfig)
    (rest : List FormConfig)
    (hf : getForms u s = f0 :: rest)
    (ha : (safeParse (s.leads u) []).any (fun l => !(hasFormId l)) = true) :
    getAllLeads u s =
      ((safeParse (s.leads u) []).map
          (fun l => if hasFormId l then l else { l with formId := some f0.id }),
        s.setLeads u (some (.enc ((safeParse (s.leads u) []).map
          (fun l => if hasFormId l then l else { l with formId := some f0.id }))))) := by
  unfold getAllLeads
  simp only [hf, ha]

/-- The state left by getAllLeads has the same forms cells. -/
theorem getAllLeads_snd_forms (u v : String) (s : Store) :
    (getAllLeads u s).2.forms v = s.forms v := by
  cases hf : getForms u s with
  | nil => rw [getAllLeads_no_forms u s hf]
  | cons f0 rest =>
    cases ha : (safeParse (s.leads u) []).any (fun l => !(hasFormId l)) with
    | false => rw [getAllLeads_no_untagged u s ha]
    | true => rw [getAllLeads_backfill_eq u s f0 rest hf ha]; simp [Store.setLeads]

/-- The state left by getAllLeads stores exactly the returned list at the
user's leads cell (either it wrote it, or it was already there). -/
theorem getAllLeads_read_consistent (u : String) (s : Store) :
    safeParse ((getAllLeads u s).2.leads u) [] = (getAllLeads u s).1 := by
  cases hf : getForms u s with
  | nil => rw [getAllLeads_no_forms u s hf]
  | cons f0 rest =>
    cases ha : (safeParse (s.leads u) []).any (fun l => !(hasFormId l)) with
    | false => rw [getAllLeads_no_untagged u s ha]
    | true =>
      rw [getAllLeads_backfill_eq u s f0 rest hf ha]
      simp [Store.setLeads, safeParse, jsonParse]

/-- C5: whenever the user has at least one form and some stored lead lacks
a formId (the JS falsy test: field absent or empty), getAllLeads tags all
such leads with the first form's id, persists the corrected sequence at
the user's leads key, and returns it; every lead that already has a formId
is returned unchanged at its position. -/
theorem getAllLeads_backfills_untagged (u : String) (s : Store) (f0 : FormConfig)
    (rest : List FormConfig)
    (hf : getForms u s = f0 :: rest)
    (ha : (safeParse (s.leads u) []).any (fun l => !(hasFormId l)) = true) :
    getAllLeads u s =
      ((safeParse (s.leads u) []).map
          (fun l => if hasFormId l then l else { l with formId := some f0.id }),
        s.setLeads u (some (.enc ((safeParse (s.leads u) []).map
          (fun l => if hasFormId l then l else { l with formId := some f0.id }))))) ∧
    ∀ (i : Nat) (l : Lead), (safeParse (s.leads u) [])[i]? = some l → hasFormId l = true →
      ((getAllLeads u s).1)[i]? = some l := by
  have heq := getAllLeads_backfill_eq u s f0 rest hf ha
  refine ⟨heq, ?_⟩
  intro i l hi hl
  rw [heq]
  simp only [List.getElem?_map, hi]
  simp [hl]

/-- A form, an untagged lead and a store holding both, used as concrete
inputs. -/
def sampleForm : FormConfig :=
  { toAppSettings := DEFAULT_SETTINGS, id := "A", title := "FA", createdAt := "t1" }

def sampleLeadUntagged : Lead :=
  { id := "L1", formId := none, name := "N", email := "E", whatsapp := "W", capturedAt := "t0" }

def sampleBackfillStore : Store :=
  { Store.empty with
    forms := fun v => if v = "u" then some (.enc [sampleForm]) else none
  , leads := fun v => if v = "u" then some (.enc [sampleLeadUntagged]) else none }

/-- C5 witness: one untagged stored lead, one form. -/
theorem getAllLeads_backfills_untagged_witness :
    (getAllLeads "u" sampleBackfillStore).1 = [{ sampleLeadUntagged with formId := some "A" }] := by
  have h := getAllLeads_backfills_untagged "u" sampleBackfillStore sampleForm [] (by decide)
    (by decide)
  rw [h.1]
  decide

/-- C9: decoding never propagates a failure: safeParse yields the fallback
on an absent key and on a string jsonParse rejects, and the decoded value
otherwise; consequently reads over corrupted cells yield the typed empty
fallback rather than an error. -/
theorem safeParse_never_fails (α : Type) (fb a : α) (s : Store) (u : String) :
    safeParse (α := α) none fb = fb ∧
    safeParse (some Raw.malformed) fb = fb ∧
    safeParse (some (Raw.enc a)) fb = a ∧
    jsonParse (Raw.malformed : Raw α) = Except.error "Error parsing storage data" ∧
    getForms u (s.setForms u (some Raw.malformed)) = [] ∧
    getStoredUsers { s with users := some Raw.malformed } = [] ∧
    (getAllLeads u (s.setLeads u (some Raw.malformed))).1 = [] := by
  refine ⟨rfl, rfl, rfl, rfl, ?_, rfl, ?_⟩
  · simp [getForms, Store.setForms, safeParse, jsonParse]
  · have hl : safeParse ((s.setLeads u (some Raw.malformed)).leads u) ([] : List Lead) = [] := by
      simp [Store.setLeads, safeParse, jsonParse]
    have : (safeParse ((s.setLeads u (some Raw.malformed)).leads u) ([] : List Lead)).any
        (fun l => !(hasFormId l)) = false := by rw [hl]; rfl
    rw [getAllLeads_no_untagged _ _ this, hl]

/-- The backfill tagging step of getAllLeads, as a named function (it is
definitionally the map argument inside getAllLeads). -/
def tagWith (fid : String) (l : Lead) : Lead :=
  if hasFormId l then l else { l with formId := some fid }

theorem getAllLeads_backfill_tag (u : String) (s : Store) (f0 : FormConfig)
    (rest : List FormConfig)
    (hf : getForms u s = f0 :: rest)
    (ha : (safeParse (s.leads u) []).any (fun l => !(hasFormId l)) = true) :
    getAllLeads u s =
      ((safeParse (s.leads u) []).map (tagWith f0.id),
        s.setLeads u (some (.enc ((safeParse (s.leads u) []).map (tagWith f0.id))))) :=
  getAllLeads_backfill_eq u s f0 rest hf ha

theorem tagWith_idem (fid : String) (l : Lead) :
    tagWith fid (tagWith fid l) = tagWith fid l := by
  unfold tagWith
  by_cases h : hasFormId l
  · simp [h]
  · simp only [h, Bool.false_eq_true, if_false]
    by_cases h2 : hasFormId { l with formId := some fid } <;> simp [h2]

theorem tagWith_tagged (fid : String) (l : Lead) (h : hasFormId l = true) :
    tagWith fid l = l := by
  simp [tagWith, h]

/-- The leads stored after deleteForm: the list returned by the inner
getAllLeads read (run against the already-shrunk form list), with every
lead of the deleted form moved to "consolidated". -/
theorem deleteForm_leads_eq (u f : String) (s : Store) :
    safeParse ((deleteForm u f s).leads u) [] =
      ((getAllLeads u (s.setForms u
          (some (.enc ((getForms u s).filter (fun g => !(g.id == f))))))).1).map
        (fun l => if l.formId == some f then { l with formId := some "consolidated" } else l) := by
  unfold deleteForm
  simp only [leads_setLeads_same]
  simp [safeParse, jsonParse]

/-- Shrinking the form list does not change what the leads cell holds. -/
theorem leads_setForms (s : Store) (u v : String) (x : Option (Raw (List FormConfig))) :
    (s.setForms u x).leads v = s.leads v := rfl

theorem getForms_setForms_same_enc (u : String) (s : Store) (fs : List FormConfig) :
    getForms u (s.setForms u (some (.enc fs))) = fs := by
  simp [getForms, Store.setForms, safeParse, jsonParse]

/-- C1 counterexample input: two forms A and B, and one stored lead with
no formId at all (so its prior formId differs from "B"). -/
def sampleFormB : FormConfig :=
  { toAppSettings := DEFAULT_SETTINGS, id := "B", title := "FB", createdAt := "t1" }

def sampleTwoFormsStore : Store :=
  { Store.empty with
    forms := fun v => if v = "u" then some (.enc [sampleForm, sampleFormB]) else none
  , leads := fun v => if v = "u" then some (.enc [sampleLeadUntagged]) else none }

/-- C1 counterexample: deleting form "B" changes the stored lead whose
prior formId (absent) differed from "B": the inner getAllLeads read
backfills it with the id of the first remaining form, "A". -/
theorem deleteForm_changes_unrelated_lead :
    (safeParse (sampleTwoFormsStore.leads "u") []).map Lead.formId = [none] ∧
    (safeParse ((deleteForm "u" "B" sampleTwoFormsStore).leads "u") []).map Lead.formId
      = [some "A"] := by
  constructor
  · decide
  · decide

/-- C1 (amended): after deleteForm(u, f) with f a non-empty id, writing L
for the previously stored leads and L2 for the leads stored afterwards:
the count is unchanged; every lead of L with formId f is now
"consolidated"; every lead of L that had a (truthy) formId different from
f is unchanged; and a lead of L lacking a formId is unchanged when no form
remains, and otherwise is backfilled with the first remaining form's id. -/
theorem deleteForm_reassigns_leads (u f : String) (s : Store) (hfne : ¬ f = "")
    (L L2 : List Lead)
    (hL : L = safeParse (s.leads u) [])
    (hL2 : L2 = safeParse ((deleteForm u f s).leads u) []) :
    L2.length = L.length ∧
    (∀ (i : Nat) (l : Lead), L[i]? = some l → l.formId = some f →
        L2[i]? = some { l with formId := some "consolidated" }) ∧
    (∀ (i : Nat) (l : Lead), L[i]? = some l → hasFormId l = true → ¬ l.formId = some f →
        L2[i]? = some l) ∧
    (∀ (i : Nat) (l : Lead), L[i]? = some l → hasFormId l = false →
        (match (getForms u s).filter (fun g => !(g.id == f)) with
         | [] => L2[i]? = some l
         | f0 :: _ => L2[i]? = some { l with formId := some f0.id })) := by
  have hleads1 : safeParse ((s.setForms u
      (some (.enc ((getForms u s).filter (fun g => !(g.id == f)))))).leads u) ([] : List Lead) =
      safeParse (s.leads u) [] := rfl
  have hmain : L2 = L.map (fun l =>
      (fun l2 => if l2.formId == some f then { l2 with formId := some "consolidated" } else l2)
      (match (getForms u s).filter (fun g => !(g.id == f)) with
       | [] => l
       | f0 :: _ => tagWith f0.id l)) := by
    rw [hL2, deleteForm_leads_eq, hL]
    cases hUF : (getForms u s).filter (fun g => !(g.id == f)) with
    | nil =>
      rw [getAllLeads_no_forms u (s.setForms u (some (.enc ([] : List FormConfig))))
        (getForms_setForms_same_enc u s [])]
      rfl
    | cons f0 r2 =>
      cases hany : (safeParse (s.leads u) []).any (fun l => !(hasFormId l)) with
      | false =>
        rw [getAllLeads_no_untagged u (s.setForms u (some (.enc (f0 :: r2)))) hany]
        refine List.map_congr_left ?_
        intro l hl
        have : hasFormId l = true := by
          have h := List.any_eq_false.mp hany l hl
          simpa using h
        simp [tagWith, this]
      | true =>
        rw [getAllLeads_backfill_tag u (s.setForms u (some (.enc (f0 :: r2)))) f0 r2
          (getForms_setForms_same_enc u s (f0 :: r2)) hany]
        simp only [List.map_map]
        rfl
  refine ⟨by rw [hmain]; simp, ?_, ?_, ?_⟩
  · intro i l hi hfid
    have htag : hasFormId l = true := by simp [hasFormId, hfid, hfne]
    rw [hmain]
    simp only [List.getElem?_map, hi, Option.map_some]
    cases hUF : (getForms u s).filter (fun g => !(g.id == f)) with
    | nil => simp [hfid]
    | cons f0 r2 => simp [tagWith, htag, hfid]
  · intro i l hi htag hne
    rw [hmain]
    simp only [List.getElem?_map, hi, Option.map_some]
    cases hUF : (getForms u s).filter (fun g => !(g.id == f)) with
    | nil => simp [hne]
    | cons f0 r2 => simp [tagWith, htag, hne]
  · intro i l hi htag
    cases hUF : (getForms u s).filter (fun g => !(g.id == f)) with
    | nil =>
      have hcond : ¬ l.formId = some f := by
        cases hfid : l.formId with
        | none => simp
        | some str =>
          have hstr : str = "" := by simpa [hasFormId, hfid] using htag
          simp [hstr, Ne.symm hfne]
      rw [hmain]
      simp only [List.getElem?_map, hi, Option.map_some, hUF]
      simp [hcond]
    | cons f0 r2 =>
      have hf0 : ¬ f0.id = f := by
        have hmem : f0 ∈ (getForms u s).filter (fun g => !(g.id == f)) := by
          rw [hUF]; exact List.mem_cons_self f0 r2
        have := (List.mem_filter.mp hmem).2
        simpa using this
      rw [hmain]
      simp only [List.getElem?_map, hi, Option.map_some, hUF]
      simp [tagWith, htag, hf0]

/-- A lead tagged with the deleted form's id, and a store holding it, for
the C1 witness. -/
def sampleLeadTaggedB : Lead :=
  { id := "L3", formId := some "B", name := "N3", email := "E3", whatsapp := "W3"
  , capturedAt := "t3" }

def sampleTaggedBStore : Store :=
  { Store.empty with
    forms := fun v => if v = "u" then some (.enc [sampleForm, sampleFormB]) else none
  , leads := fun v => if v = "u" then some (.enc [sampleLeadTaggedB]) else none }

theorem deleteForm_reassigns_leads_witness :
    (safeParse ((deleteForm "u" "B" sampleTaggedBStore).leads "u") []).length = 1 ∧
    (safeParse ((deleteForm "u" "B" sampleTaggedBStore).leads "u") [])[0]? =
      some { sampleLeadTaggedB with formId := some "consolidated" } := by
  have h := deleteForm_reassigns_leads "u" "B" sampleTaggedBStore (by decide)
    (safeParse (sampleTaggedBStore.leads "u") [])
    (safeParse ((deleteForm "u" "B" sampleTaggedBStore).leads "u") []) rfl rfl
  exact ⟨by rw [h.1]; decide, h.2.1 0 sampleLeadTaggedB (by decide) (by decide)⟩

/-- A lead whose id matches no stored lead, used as concrete input. -/
def sampleLeadX : Lead :=
  { id := "ZZZ", formId := some "A", name := "X", email := "X", whatsapp := "X"
  , capturedAt := "t5" }

/-- C7 counterexample: updating a lead whose id is absent still changes
the stored state, because the getAllLeads read inside updateLead persists
the formId backfill before the index lookup fails. -/
theorem updateLead_missing_id_still_writes :
    (safeParse (sampleBackfillStore.leads "u") []).map Lead.id = ["L1"] ∧
    sampleLeadX.id = "ZZZ" ∧
    (updateLead "u" sampleLeadX sampleBackfillStore).leads "u" ≠
      sampleBackfillStore.leads "u" := by
  refine ⟨by decide, rfl, by decide⟩

/-- C7 (amended): with a record whose id matches nothing stored, updateForm
returns the state unchanged; updateLead returns exactly the state left by
its internal getAllLeads read (so it writes nothing itself), and when no
stored lead lacks a formId that state is the original one. -/
theorem update_missing_id_behavior (u : String) (form : FormConfig) (l : Lead) (s : Store)
    (hform : ∀ g ∈ getForms u s, ¬ g.id = form.id)
    (hlead : ∀ x ∈ (getAllLeads u s).1, ¬ x.id = l.id) :
    updateForm u form s = s ∧
    updateLead u l s = (getAllLeads u s).2 ∧
    ((safeParse (s.leads u) []).all (fun x => hasFormId x) = true → updateLead u l s = s) := by
  have hfidx : (getForms u s).findIdx? (fun g => g.id == form.id) = none :=
    List.findIdx?_eq_none_iff.mpr (fun x hx => by simp [hform x hx])
  have hlidx : ((getAllLeads u s).1).findIdx? (fun x => x.id == l.id) = none :=
    List.findIdx?_eq_none_iff.mpr (fun x hx => by simp [hlead x hx])
  have hupd : updateLead u l s = (getAllLeads u s).2 := by
    unfold updateLead
    simp only [hlidx]
  refine ⟨?_, hupd, ?_⟩
  · unfold updateForm
    simp only [hfidx]
  · intro hall
    have hany : (safeParse (s.leads u) []).any (fun x => !(hasFormId x)) = false := by
      rw [List.any_eq_false]
      intro x hx
      simp [List.all_eq_true.mp hall x hx]
    rw [hupd, getAllLeads_no_untagged u s hany]

/-- A store with one form and one already-tagged lead, for the C7
witness. -/
def sampleLeadTaggedA : Lead :=
  { id := "L4", formId := some "A", name := "N4", email := "E4", whatsapp := "W4"
  , capturedAt := "t4" }

def sampleTaggedStore : Store :=
  { Store.empty with
    forms := fun v => if v = "u" then some (.enc [sampleForm]) else none
  , leads := fun v => if v = "u" then some (.enc [sampleLeadTaggedA]) else none }

theorem update_missing_id_behavior_witness :
    updateForm "u" sampleFormB sampleTaggedStore = sampleTaggedStore ∧
    updateLead "u" sampleLeadX sampleTaggedStore = sampleTaggedStore := by
  have h := update_missing_id_behavior "u" sampleFormB sampleLeadX sampleTaggedStore
    (by decide) (by decide)
  exact ⟨h.1, h.2.2 (by decide)⟩

/-- C8 counterexample: saveLead's internal getAllLeads read persists the
backfill, so the previously stored lead does not follow the new lead
unchanged: it reappears with its formId filled in. -/
theorem saveLead_modifies_prior_leads :
    safeParse (sampleBackfillStore.leads "u") [] = [sampleLeadUntagged] ∧
    (getAllLeads "u" (saveLead "u" "F" "n2" "e2" "w2" "L2" "t2" sampleBackfillStore)).1 =
      [{ id := "L2", formId := some "F", name := "n2", email := "e2", whatsapp := "w2"
       , capturedAt := "t2" },
       { sampleLeadUntagged with formId := some "A" }] ∧
    ((getAllLeads "u" (saveLead "u" "F" "n2" "e2" "w2" "L2" "t2" sampleBackfillStore)).1).drop 1
      ≠ safeParse (sampleBackfillStore.leads "u") [] := by
  refine ⟨by decide, by decide, by decide⟩

/-- Reading after writing a leads list: when the user has no forms or the
written list is fully tagged, getAllLeads returns it as is. -/
theorem getAllLeads_setLeads_pure (u : String) (s : Store) (L2 : List Lead)
    (h : getForms u s = [] ∨ L2.any (fun x => !(hasFormId x)) = false) :
    (getAllLeads u (s.setLeads u (some (.enc L2)))).1 = L2 := by
  have hr : safeParse ((s.setLeads u (some (.enc L2))).leads u) ([] : List Lead) = L2 := by
    simp [Store.setLeads, safeParse, jsonParse]
  cases h with
  | inl h =>
    rw [getAllLeads_no_forms u (s.setLeads u (some (.enc L2))) h, hr]
  | inr h =>
    rw [getAllLeads_no_untagged u (s.setLeads u (some (.enc L2))) (by rw [hr]; exact h), hr]

/-- Reading after writing a leads list each of whose elements is a fixed
point of the backfill tagging: getAllLeads returns it as is. -/
theorem getAllLeads_setLeads_tag_fixed (u : String) (s : Store) (f0 : FormConfig)
    (rest : List FormConfig) (L2 : List Lead)
    (hforms : getForms u s = f0 :: rest)
    (htag : ∀ x ∈ L2, tagWith f0.id x = x) :
    (getAllLeads u (s.setLeads u (some (.enc L2)))).1 = L2 := by
  have hr : safeParse ((s.setLeads u (some (.enc L2))).leads u) ([] : List Lead) = L2 := by
    simp [Store.setLeads, safeParse, jsonParse]
  have hforms2 : getForms u (s.setLeads u (some (.enc L2))) = f0 :: rest := hforms
  cases hany2 : L2.any (fun x => !(hasFormId x)) with
  | false =>
    rw [getAllLeads_no_untagged u (s.setLeads u (some (.enc L2))) (by rw [hr]; exact hany2), hr]
  | true =>
    rw [getAllLeads_backfill_tag u (s.setLeads u (some (.enc L2))) f0 rest hforms2
      (by rw [hr]; exact hany2), hr]
    exact (List.map_congr_left fun x hx => htag x hx).trans (List.map_id L2)

/-- C8 (amended): for a non-empty form id f, saving a lead and reading the
ledger returns the new record — input fields, formId f, the generated id
and timestamp — at the front, followed exactly by what a read would have
returned just before the save (the previously stored leads, possibly with
the formId backfill applied). -/
theorem saveLead_roundtrip (u f nm em wa fid now : String) (s : Store) (hf : ¬ f = "") :
    (getAllLeads u (saveLead u f nm em wa fid now s)).1 =
      { id := fid, formId := some f, name := nm, email := em, whatsapp := wa
      , capturedAt := now } :: (getAllLeads u s).1 := by
  have hnltag : hasFormId { id := fid, formId := some f, name := nm, email := em, whatsapp := wa, capturedAt := now } = true := by
    simp [hasFormId, hf]
  cases hforms : getForms u s with
  | nil =>
    have h1 := getAllLeads_no_forms u s hforms
    have hsave : saveLead u f nm em wa fid now s =
        Store.setLeads s u (some (.enc ({ id := fid, formId := some f, name := nm, email := em, whatsapp := wa, capturedAt := now } :: safeParse (s.leads u) []))) := by
      unfold saveLead
      rw [h1]
    rw [hsave, h1]
    exact getAllLeads_setLeads_pure u s _ (Or.inl hforms)
  | cons f0 rest =>
    cases hany : (safeParse (s.leads u) []).any (fun x => !(hasFormId x)) with
    | false =>
      have h1 := getAllLeads_no_untagged u s hany
      have hsave : saveLead u f nm em wa fid now s =
          Store.setLeads s u (some (.enc ({ id := fid, formId := some f, name := nm, email := em, whatsapp := wa, capturedAt := now } :: safeParse (s.leads u) []))) := by
        unfold saveLead
        rw [h1]
      rw [hsave, h1]
      exact getAllLeads_setLeads_pure u s _ (Or.inr (by simp [hnltag, hany]))
    | true =>
      have h1 := getAllLeads_backfill_tag u s f0 rest hforms hany
      have hsave : saveLead u f nm em wa fid now s =
          Store.setLeads
            (Store.setLeads s u
              (some (.enc ((safeParse (s.leads u) []).map (tagWith f0.id))))) u
            (some (.enc ({ id := fid, formId := some f, name := nm, email := em, whatsapp := wa, capturedAt := now }
                :: (safeParse (s.leads u) []).map (tagWith f0.id)))) := by
        unfold saveLead
        rw [h1]
      rw [hsave, h1]
      refine getAllLeads_setLeads_tag_fixed u
        (Store.setLeads s u (some (.enc ((safeParse (s.leads u) []).map (tagWith f0.id)))))
        f0 rest _ hforms ?_
      intro x hx
      rcases List.mem_cons.mp hx with h | h
      · subst h
        exact tagWith_tagged _ _ hnltag
      · rcases List.mem_map.mp h with ⟨l, hl, rfl⟩
        exact tagWith_idem f0.id l


/-- C8 witness: the amended round trip at a concrete input whose stored
lead is untagged. -/
theorem saveLead_roundtrip_witness :
    (getAllLeads "u" (saveLead "u" "F" "n2" "e2" "w2" "L2" "t2" sampleBackfillStore)).1 =
      { id := "L2", formId := some "F", name := "n2", email := "e2", whatsapp := "w2"
      , capturedAt := "t2" } :: (getAllLeads "u" sampleBackfillStore).1 :=
  saveLead_roundtrip "u" "F" "n2" "e2" "w2" "L2" "t2" sampleBackfillStore (by decide)

-- --- PER-USER KEY SCHEMA AND ISOLATION ---

theorem data_append (a b : String) : (a ++ b).data = a.data ++ b.data := rfl

theorem string_data_inj (a b : String) (h : a.data = b.data) : a = b := by
  cases a
  cases b
  exact congrArg String.mk h

/-- The three per-user key families never collide: equal keys force equal
user id and equal key type. -/
theorem getUserKey_inj (u v t t' : String)
    (ht : t = "settings" ∨ t = "leads" ∨ t = "forms")
    (ht' : t' = "settings" ∨ t' = "leads" ∨ t' = "forms")
    (h : getUserKey u t = getUserKey v t') : u = v ∧ t = t' := by
  have hdata := congrArg String.data h
  simp only [getUserKey, data_append] at hdata
  have hrev := congrArg List.reverse hdata
  simp only [List.reverse_append, List.append_assoc] at hrev
  have hclash : ∀ (T T' ru rv : List Char), 1 < T.length → 1 < T'.length →
      T[1]? ≠ T'[1]? → T ++ ru = T' ++ rv → False := by
    intro T T' ru rv h1 h2 hne heq
    apply hne
    rw [← List.getElem?_append_left h1, ← List.getElem?_append_left h2, heq]
  have hsame : ∀ (T ru rv : List Char), T ++ ru = T ++ rv → ru = rv :=
    fun T ru rv hh => List.append_cancel_left hh
  have huv : ∀ (hh : ("_".data.reverse ++ (u.data.reverse ++ "saas_".data.reverse)) =
      ("_".data.reverse ++ (v.data.reverse ++ "saas_".data.reverse))), u = v := by
    intro hh
    have h2 := List.append_cancel_left hh
    have h3 := List.append_cancel_right h2
    exact string_data_inj u v (List.reverse_injective h3)
  rcases ht with rfl | rfl | rfl <;> rcases ht' with rfl | rfl | rfl
  · exact ⟨huv (hsame _ _ _ hrev), rfl⟩
  · exact absurd hrev (fun hh => hclash _ _ _ _ (by decide) (by decide) (by decide) hh)
  · exact absurd hrev (fun hh => hclash _ _ _ _ (by decide) (by decide) (by decide) hh)
  · exact absurd hrev (fun hh => hclash _ _ _ _ (by decide) (by decide) (by decide) hh)
  · exact ⟨huv (hsame _ _ _ hrev), rfl⟩
  · exact absurd hrev (fun hh => hclash _ _ _ _ (by decide) (by decide) (by decide) hh)
  · exact absurd hrev (fun hh => hclash _ _ _ _ (by decide) (by decide) (by decide) hh)
  · exact absurd hrev (fun hh => hclash _ _ _ _ (by decide) (by decide) (by decide) hh)
  · exact ⟨huv (hsame _ _ _ hrev), rfl⟩

/-- Everything outside user u's forms/leads cells is unchanged: the global
user list, the session pointer, and every other user's cells. -/
def framePreserved (u : String) (s t : Store) : Prop :=
  t.users = s.users ∧ t.session = s.session ∧
  ∀ v, ¬ v = u → (t.forms v = s.forms v ∧ t.leads v = s.leads v ∧ t.settings v = s.settings v)

theorem frame_refl (u : String) (s : Store) : framePreserved u s s :=
  ⟨rfl, rfl, fun _ _ => ⟨rfl, rfl, rfl⟩⟩

theorem frame_trans (u : String) (s t r : Store)
    (h1 : framePreserved u s t) (h2 : framePreserved u t r) : framePreserved u s r := by
  obtain ⟨hu1, hs1, hv1⟩ := h1
  obtain ⟨hu2, hs2, hv2⟩ := h2
  refine ⟨hu2.trans hu1, hs2.trans hs1, fun v hv => ?_⟩
  obtain ⟨a1, b1, c1⟩ := hv1 v hv
  obtain ⟨a2, b2, c2⟩ := hv2 v hv
  exact ⟨a2.trans a1, b2.trans b1, c2.trans c1⟩

theorem frame_setForms (u : String) (s : Store) (x : Option (Raw (List FormConfig))) :
    framePreserved u s (s.setForms u x) := by
  refine ⟨rfl, rfl, fun v hv => ⟨?_, rfl, rfl⟩⟩
  simp [Store.setForms, hv]

theorem frame_setLeads (u : String) (s : Store) (x : Option (Raw (List Lead))) :
    framePreserved u s (s.setLeads u x) := by
  refine ⟨rfl, rfl, fun v hv => ⟨rfl, ?_, rfl⟩⟩
  simp [Store.setLeads, hv]

theorem frame_getAllLeads (u : String) (s : Store) :
    framePreserved u s (getAllLeads u s).2 := by
  cases hf : getForms u s with
  | nil => rw [getAllLeads_no_forms u s hf]; exact frame_refl u s
  | cons f0 rest =>
    cases ha : (safeParse (s.leads u) []).any (fun l => !(hasFormId l)) with
    | false => rw [getAllLeads_no_untagged u s ha]; exact frame_refl u s
    | true => rw [getAllLeads_backfill_tag u s f0 rest hf ha]; exact frame_setLeads u s _

/-- C10: per-user isolation.  The per-user key schema is injective (equal
keys force equal user and key type), and every mutating Form Registry /
Lead Ledger operation on user u preserves the global user list, the
session pointer, and every other user's forms, leads and settings cells. -/
theorem user_isolation :
    (∀ u v t t', t ∈ (["settings", "leads", "forms"] : List String) →
        t' ∈ (["settings", "leads", "forms"] : List String) →
        getUserKey u t = getUserKey v t' → u = v ∧ t = t') ∧
    (∀ u title fid now s, framePreserved u s (createForm u title fid now s).2) ∧
    (∀ u form s, framePreserved u s (updateForm u form s)) ∧
    (∀ u f s, framePreserved u s (deleteForm u f s)) ∧
    (∀ u s, framePreserved u s (getAllLeads u s).2) ∧
    (∀ u f nm em wa fid now s, framePreserved u s (saveLead u f nm em wa fid now s)) ∧
    (∀ u l s, framePreserved u s (updateLead u l s)) ∧
    (∀ u lid s, framePreserved u s (deleteLead u lid s)) ∧
    (∀ u lids s, framePreserved u s (deleteMultipleLeads u lids s)) := by
  refine ⟨?_, ?_, ?_, ?_, ?_, ?_, ?_, ?_, ?_⟩
  · intro u v t t' ht ht' h
    exact getUserKey_inj u v t t' (by simpa using ht) (by simpa using ht') h
  · intro u title fid now s
    exact frame_setForms u s _
  · intro u form s
    unfold updateForm
    cases hidx : (getForms u s).findIdx? (fun f => f.id == form.id) with
    | none => simp only [hidx]; exact frame_refl u s
    | some i => simp only [hidx]; exact frame_setForms u s _
  · intro u f s
    exact frame_trans u s _ _
      (frame_trans u s _ _ (frame_setForms u s _)
        (frame_getAllLeads u (s.setForms u
          (some (.enc ((getForms u s).filter (fun g => !(g.id == f))))))))
      (frame_setLeads u _ _)
  · intro u s
    exact frame_getAllLeads u s
  · intro u f nm em wa fid now s
    exact frame_trans u s _ _ (frame_getAllLeads u s) (frame_setLeads u _ _)
  · intro u l s
    unfold updateLead
    cases hidx : ((getAllLeads u s).1).findIdx? (fun x => x.id == l.id) with
    | none => simp only [hidx]; exact frame_getAllLeads u s
    | some i =>
      simp only [hidx]
      exact frame_trans u s _ _ (frame_getAllLeads u s) (frame_setLeads u _ _)
  · intro u lid s
    exact frame_trans u s _ _ (frame_getAllLeads u s) (frame_setLeads u _ _)
  · intro u lids s
    exact frame_trans u s _ _ (frame_getAllLeads u s) (frame_setLeads u _ _)

/-- C10 witness: the key lemma at a concrete key pair, and the frame of a
concrete deleteForm at another user's cells. -/
theorem user_isolation_witness :
    ("a" = "b" ∧ "forms" = "forms" → False) ∧
    ("a" = "a" ∧ "forms" = "forms") ∧
    (deleteForm "u" "A" sampleBackfillStore).users = sampleBackfillStore.users ∧
    (deleteForm "u" "A" sampleBackfillStore).leads "w" = sampleBackfillStore.leads "w" := by
  have h := user_isolation
  refine ⟨fun hab => by simpa using hab.1, ?_, ?_, ?_⟩
  · exact h.1 "a" "a" "forms" "forms" (by simp) (by simp) rfl
  · exact (h.2.2.2.1 "u" "A" sampleBackfillStore).1
  · exact ((h.2.2.2.1 "u" "A" sampleBackfillStore).2.2 "w" (by decide)).2.1

-- --- CORE OPERATION SEQUENCES (for the forms-nonempty invariant) ---

theorem getForms_setLeads (u v : String) (x : Option (Raw (List Lead))) (s : Store) :
    getForms u (s.setLeads v x) = getForms u s := rfl

theorem getForms_getAllLeads (u v : String) (s : Store) :
    getForms u (getAllLeads v s).2 = getForms u s := by
  simp [getForms, getAllLeads_snd_forms]

theorem getForms_setForms_ne (u v : String) (x : Option (Raw (List FormConfig))) (s : Store)
    (hu : u ≠ v) : getForms u (s.setForms v x) = getForms u s := by
  simp [getForms, forms_setForms_other s v u x hu]

theorem createForm_preserves (u uid title fid now : String) (s : Store)
    (h : ¬ getForms u s = []) : ¬ getForms u ((createForm uid title fid now s).2) = [] := by
  by_cases hu : u = uid
  · subst hu
    have heq : getForms u ((createForm u title fid now s).2) =
        getForms u s ++ [{ toAppSettings := DEFAULT_SETTINGS, id := fid, title := title
                         , createdAt := now }] :=
      getForms_setForms_same_enc u s _
    rw [heq]
    simp
  · have heq : getForms u ((createForm uid title fid now s).2) = getForms u s :=
      getForms_setForms_ne u uid _ s hu
    rw [heq]
    exact h

theorem registerUser_preserves (u n e p uid unow fid fnow : String) (s : Store)
    (h : ¬ getForms u s = []) :
    ¬ getForms u ((registerUser n e p uid unow fid fnow s).2) = [] := by
  unfold registerUser
  cases hf : (getStoredUsers s).find? (fun x => x.email == e) with
  | some w => simp only [hf]; exact h
  | none =>
    simp only [hf]
    exact createForm_preserves u uid _ fid fnow _ h

theorem migrate_preserves (u v fid now : String) (s : Store)
    (h : ¬ getForms u s = []) : ¬ getForms u (migrateLegacySettings v fid now s) = [] := by
  cases hc : s.forms v with
  | some w =>
    rw [migrate_noop v fid now s (by simp [hc])]
    exact h
  | none =>
    by_cases hu : u = v
    · subst hu
      exfalso
      apply h
      simp [getForms, hc, safeParse]
    · have heq : getForms u (migrateLegacySettings v fid now s) = getForms u s := by
        unfold migrateLegacySettings
        simp only [hc]
        exact getForms_setForms_ne u v _ s hu
      rw [heq]
      exact h

theorem updateForm_preserves (u v : String) (form : FormConfig) (s : Store)
    (h : ¬ getForms u s = []) : ¬ getForms u (updateForm v form s) = [] := by
  unfold updateForm
  cases hidx : (getForms v s).findIdx? (fun f => f.id == form.id) with
  | none => simp only [hidx]; exact h
  | some i =>
    simp only [hidx]
    by_cases hu : u = v
    · subst hu
      rw [getForms_setForms_same_enc]
      intro hnil
      apply h
      have hlen : ((getForms u s).set i form).length = 0 := by rw [hnil]; rfl
      rw [List.length_set] at hlen
      exact List.eq_nil_of_length_eq_zero hlen
    · rw [getForms_setForms_ne u v _ s hu]
      exact h

theorem getForms_deleteForm_same (u f : String) (s : Store) :
    getForms u (deleteForm u f s) = (getForms u s).filter (fun g => !(g.id == f)) := by
  unfold deleteForm
  rw [getForms_setLeads, getForms_getAllLeads]
  exact getForms_setForms_same_enc u s _

theorem getForms_deleteForm_other (u v f : String) (s : Store) (hu : u ≠ v) :
    getForms u (deleteForm v f s) = getForms u s := by
  unfold deleteForm
  rw [getForms_setLeads, getForms_getAllLeads, getForms_setForms_ne u v _ s hu]

/-- A core operation, with every fresh id and timestamp it consumes made
explicit. -/
inductive Op where
  | register (name email password uid unow fid fnow : String)
  | login (email pass fid now : String)
  | logout
  | migrate (userId fid now : String)
  | createF (userId title fid now : String)
  | updateF (userId : String) (form : FormConfig)
  | deleteF (userId formId : String)
  | readLeads (userId : String)
  | save (userId formId name email whatsapp fid now : String)
  | updateL (userId : String) (l : Lead)
  | deleteL (userId leadId : String)
  | deleteMany (userId : String) (leadIds : List String)
  | initStorage (uid unow fid fnow : String)

/-- The state transition of one core operation. -/
def Op.apply : Op → Store → Store
  | .register n e p uid unow fid fnow, s => (registerUser n e p uid unow fid fnow s).2
  | .login e p fid now, s => (loginUser e p fid now s).2
  | .logout, s => logoutUser s
  | .migrate v fid now, s => migrateLegacySettings v fid now s
  | .createF v title fid now, s => (createForm v title fid now s).2
  | .updateF v form, s => updateForm v form s
  | .deleteF v f, s => deleteForm v f s
  | .readLeads v, s => (getAllLeads v s).2
  | .save v f nm em wa fid now, s => saveLead v f nm em wa fid now s
  | .updateL v l, s => updateLead v l s
  | .deleteL v lid, s => deleteLead v lid s
  | .deleteMany v lids, s => deleteMultipleLeads v lids s
  | .initStorage uid unow fid fnow, s => initializeStorage uid unow fid fnow s

/-- Run a sequence of core operations. -/
def applyOps (ops : List Op) (s : Store) : Store :=
  ops.foldl (fun st op => op.apply st) s

/-- Side condition under which an operation cannot empty user u's form
list: a deleteForm for u must leave at least one form with a different
id.  Every other operation is unrestricted. -/
def okOp (u : String) (s : Store) : Op → Prop
  | .deleteF v f => v = u → ∃ g ∈ getForms u s, ¬ g.id = f
  | _ => True

/-- A sequence of core operations each satisfying its side condition in
the state where it runs. -/
inductive SafeOps (u : String) : Store → List Op → Prop where
  | nil (s : Store) : SafeOps u s []
  | cons (s : Store) (op : Op) (ops : List Op) : okOp u s op →
      SafeOps u (op.apply s) ops → SafeOps u s (op :: ops)

theorem okOp_preserves (u : String) (s : Store) (op : Op)
    (hok : okOp u s op) (h : ¬ getForms u s = []) : ¬ getForms u (op.apply s) = [] := by
  cases op with
  | register n e p uid unow fid fnow => exact registerUser_preserves u n e p uid unow fid fnow s h
  | login e p fid now =>
    show ¬ getForms u (loginUser e p fid now s).2 = []
    unfold loginUser
    cases hf : (getStoredUsers s).find? (fun x => x.email == e && x.password == p) with
    | none => simp only [hf]; exact h
    | some w =>
      simp only [hf]
      exact migrate_preserves u w.id fid now _ h
  | logout => exact h
  | migrate v fid now => exact migrate_preserves u v fid now s h
  | createF v title fid now => exact createForm_preserves u v title fid now s h
  | updateF v form => exact updateForm_preserves u v form s h
  | deleteF v f =>
    by_cases hu : v = u
    · subst hu
      obtain ⟨g, hg, hgid⟩ := hok rfl
      show ¬ getForms v (deleteForm v f s) = []
      rw [getForms_deleteForm_same]
      intro hnil
      have hin : g ∈ (getForms v s).filter (fun g2 => !(g2.id == f)) :=
        List.mem_filter.mpr ⟨hg, by simp [hgid]⟩
      rw [hnil] at hin
      exact List.not_mem_nil g hin
    · show ¬ getForms u (deleteForm v f s) = []
      rw [getForms_deleteForm_other u v f s (fun hh => hu hh.symm)]
      exact h
  | readLeads v =>
    show ¬ getForms u (getAllLeads v s).2 = []
    rw [getForms_getAllLeads]
    exact h
  | save v f nm em wa fid now =>
    show ¬ getForms u (saveLead v f nm em wa fid now s) = []
    unfold saveLead
    rw [getForms_setLeads, getForms_getAllLeads]
    exact h
  | updateL v l =>
    show ¬ getForms u (updateLead v l s) = []
    unfold updateLead
    cases hidx : ((getAllLeads v s).1).findIdx? (fun x => x.id == l.id) with
    | none => simp only [hidx]; rw [getForms_getAllLeads]; exact h
    | some i => simp only [hidx]; rw [getForms_setLeads, getForms_getAllLeads]; exact h
  | deleteL v lid =>
    show ¬ getForms u (deleteLead v lid s) = []
    unfold deleteLead
    rw [getForms_setLeads, getForms_getAllLeads]
    exact h
  | deleteMany v lids =>
    show ¬ getForms u (deleteMultipleLeads v lids s) = []
    unfold deleteMultipleLeads
    rw [getForms_setLeads, getForms_getAllLeads]
    exact h
  | initStorage uid unow fid fnow =>
    show ¬ getForms u (initializeStorage uid unow fid fnow s) = []
    unfold initializeStorage
    cases hf : (getStoredUsers s).find? (fun x => x.email == ADMIN_EMAIL) with
    | some w => simp only [hf]; exact h
    | none =>
      simp only [hf]
      exact registerUser_preserves u _ ADMIN_EMAIL _ uid unow fid fnow s h

/-- A store with a registered user who owns a single form, for the C6
counterexample. -/
def sampleLoginStore : Store :=
  { Store.empty with
    users := some (.enc [{ id := "u1", name := "Ana", email := "ana@x.com"
                         , password := "pw1", createdAt := "t0" }])
  , forms := fun v => if v = "u1" then some (.enc [sampleForm]) else none }

/-- C6 counterexample: after a successful login, deleting the user's only
form through the core leaves the form list empty — the core re-creates
nothing (the admin UI layer does). -/
theorem deleteForm_can_empty_forms :
    (loginUser "ana@x.com" "pw1" "f9" "t9" sampleLoginStore).1.isSome = true ∧
    getForms "u1" (deleteForm "u1" "A"
        (loginUser "ana@x.com" "pw1" "f9" "t9" sampleLoginStore).2) = [] := by
  refine ⟨by decide, by decide⟩

/-- C6 (amended): a non-empty form list stays non-empty under any sequence
of core operations in which every deleteForm aimed at this user leaves a
form with a different id; and registration with a fresh email and fresh
id provisions exactly one form.  (The core does not re-create a form when
the last one is deleted; the admin UI layer performs that recovery.) -/
theorem forms_nonempty_invariant :
    (∀ (u : String) (s : Store) (ops : List Op), SafeOps u s ops → ¬ getForms u s = [] →
        ¬ getForms u (applyOps ops s) = []) ∧
    (∀ n e p uid unow fid fnow s, (∀ x ∈ getStoredUsers s, x.email ≠ e) →
        getForms uid s = [] →
        (getForms uid (registerUser n e p uid unow fid fnow s).2).length = 1) := by
  constructor
  · intro u s ops hsafe
    induction hsafe with
    | nil s => exact fun h => h
    | cons s op ops hok hsafe ih => exact fun h => ih (okOp_preserves u s op hok h)
  · intro n e p uid unow fid fnow s hEmail hForms
    have hfind : (getStoredUsers s).find? (fun x => x.email == e) = none :=
      List.find?_eq_none.mpr (fun x hx => by simp [hEmail x hx])
    rw [registerUser_fresh_eq n e p uid unow fid fnow s hfind hForms]
    rw [show getForms uid
        (Store.setForms
          { s with users := some (.enc (getStoredUsers s ++
              [{ id := uid, name := n, email := e, password := p, createdAt := unow }])) }
          uid
          (some (.enc [{ toAppSettings := DEFAULT_SETTINGS, id := fid
                       , title := "Meu Primeiro Formulário", createdAt := fnow }]))) =
        [{ toAppSettings := DEFAULT_SETTINGS, id := fid
         , title := "Meu Primeiro Formulário", createdAt := fnow }] from
      getForms_setForms_same_enc uid _ _]
    rfl

/-- C6 witness: a safe deleteForm (another form remains) keeps the list
non-empty, and a concrete registration provisions exactly one form. -/
theorem forms_nonempty_invariant_witness :
    ¬ getForms "u" (applyOps [Op.deleteF "u" "B"] sampleTwoFormsStore) = [] ∧
    (getForms "u9" (registerUser "Bob" "bob@x.com" "pw" "u9" "t0" "f0" "t0" Store.empty).2).length
      = 1 := by
  have h := forms_nonempty_invariant
  refine ⟨h.1 "u" sampleTwoFormsStore [Op.deleteF "u" "B"]
      (SafeOps.cons _ _ _ (fun _ => ⟨sampleForm, by decide, by decide⟩) (SafeOps.nil _))
      (by decide),
    h.2 "Bob" "bob@x.com" "pw" "u9" "t0" "f0" "t0" Store.empty
      (by simp [getStoredUsers, Store.empty, safeParse]) rfl⟩

end LeadsCore
